import Mathlib

/-!
Verification of the FBI_Fraud repository's specification against its source.

The development shallowly embeds the Python code of `gemini_supabase.py`,
`extract_state_from_html.py` and `fraud_visualizations.py`:

* a `Json` value type and `json_loads`, modelling Python's `json.loads`
  (JSON numbers are modelled as integers; fractions and exponents are
  rejected by the model since no claim involves them, and `json.loads`'s
  last-duplicate-key-wins behaviour is modelled by keeping the field list
  in order — no claim involves duplicate keys);
* the JSON normalization strategies of `format_with_gemini`
  (`gemini_supabase.py` lines 250-313) and its fallback structure
  (lines 440-482);
* the state-record extraction and merge logic of
  `extract_state_from_html.py` (lines 68-94);
* `normalize_age_group` of `fraud_visualizations.py` (lines 17-47);
* `check_cache` and `save_to_supabase` of `gemini_supabase.py`.

Python strings are modelled as Lean `String`s (code-point sequences match
Python's `str` indexing); Python `None` is `Option.none`; Python dicts keyed
by state name are association lists keyed by the `state` field, preserving
insertion order.
-/

/-- Model of a parsed Python JSON value (the result of `json.loads`). -/
inductive Json where
  | null
  | bool (b : Bool)
  | num (n : Int)
  | str (s : String)
  | arr (elems : List Json)
  | obj (fields : List (String × Json))

/-- Occurrence of `pat` as a contiguous run inside a character list. -/
def isInfixB (pat : List Char) : List Char → Bool
  | [] => pat.isEmpty
  | c :: rest => pat.isPrefixOf (c :: rest) || isInfixB pat rest

/-- Substring test: models Python's `needle in haystack` for strings
(`str.__contains__`). -/
def strContains (hay pat : String) : Bool :=
  isInfixB pat.toList hay.toList

/-- Characters stripped by Python's `str.strip()` (ASCII range): space,
tab, LF, CR, FF, VT. -/
def pyIsSpace (c : Char) : Bool :=
  c = ' ' || c = '\t' || c = '\n' || c = '\r' || c = Char.ofNat 12 || c = Char.ofNat 11

/-- Model of Python's `str.strip()`: drop leading and trailing
whitespace. -/
def pyStrip (s : String) : String :=
  String.mk (((s.toList.dropWhile pyIsSpace).reverse.dropWhile pyIsSpace).reverse)

/-- Model of Python's `str.lower()` (ASCII case folding; the inputs in
this development contain no cased non-ASCII letters). -/
def pyLower (s : String) : String :=
  String.mk (s.toList.map Char.toLower)

/-- Splitting scan for `pySplit`: pieces are produced left to right at
each non-overlapping occurrence of the separator; the fuel passed by
`pySplit` always suffices. -/
def splitAux (sep : List Char) : Nat → List Char → List Char → List (List Char)
  | 0, acc, cs => [acc.reverse ++ cs]
  | fuel + 1, acc, cs =>
    if sep.isPrefixOf cs then acc.reverse :: splitAux sep fuel [] (cs.drop sep.length)
    else match cs with
      | [] => [acc.reverse]
      | c :: rest => splitAux sep fuel (c :: acc) rest

/-- Model of Python's `str.split(sep)` for a nonempty separator (Python
raises on an empty separator; no caller uses one). -/
def pySplit (s sep : String) : List String :=
  if sep.isEmpty then [s]
  else (splitAux sep.toList (s.length + 1) [] s.toList).map String.mk

/-- Replacement scan for `pyReplace`, left to right and non-overlapping;
the fuel passed by `pyReplace` always suffices. -/
def replaceAux (pat rep : List Char) : Nat → List Char → List Char
  | 0, cs => cs
  | fuel + 1, cs =>
    if pat.isPrefixOf cs then rep ++ replaceAux pat rep fuel (cs.drop pat.length)
    else match cs with
      | [] => []
      | c :: rest => c :: replaceAux pat rep fuel rest

/-- Model of Python's `str.replace(pat, rep)` for a nonempty pattern (no
caller replaces an empty pattern). -/
def pyReplace (s pat rep : String) : String :=
  if pat.isEmpty then s
  else String.mk (replaceAux pat.toList rep.toList (s.length + 1) s.toList)

/-- Model of Python's `str.startswith`. -/
def startsWithB (s pre : String) : Bool :=
  pre.toList.isPrefixOf s.toList

/-- Lexicographic comparison of character lists by code point, as Python
compares strings. -/
def lexLtB : List Char → List Char → Bool
  | [], [] => false
  | [], _ :: _ => true
  | _ :: _, [] => false
  | a :: as, b :: bs =>
    if a.toNat < b.toNat then true
    else if b.toNat < a.toNat then false
    else lexLtB as bs

/-- Lexicographic string comparison by code point (Python's `<` on
`str`). -/
def keyLtB (a b : String) : Bool :=
  lexLtB a.toList b.toList

/-- JSON whitespace (also Python `json` module whitespace): space, tab,
line feed, carriage return. -/
def jsonWs (c : Char) : Bool :=
  c = ' ' || c = '\t' || c = '\n' || c = '\r'

/-- Drop leading JSON whitespace. -/
def skipWs : List Char → List Char
  | [] => []
  | c :: rest => if jsonWs c then skipWs rest else c :: rest

/-- Map a JSON escape character to the character it denotes. -/
def escCharOf : Char → Option Char
  | '"' => some '"'
  | '\\' => some '\\'
  | '/' => some '/'
  | 'b' => some (Char.ofNat 8)
  | 'f' => some (Char.ofNat 12)
  | 'n' => some '\n'
  | 'r' => some '\r'
  | 't' => some '\t'
  | _ => none

/-- Hexadecimal digit value. -/
def hexVal (c : Char) : Option Nat :=
  if '0' ≤ c && c ≤ '9' then some (c.toNat - 48)
  else if 'a' ≤ c && c ≤ 'f' then some (c.toNat - 87)
  else if 'A' ≤ c && c ≤ 'F' then some (c.toNat - 55)
  else none

/-- Parse the body of a JSON string literal (the opening quote already
consumed); returns the decoded characters and the remainder after the
closing quote.  Raw control characters are rejected, as in `json.loads`. -/
def parseStrChars : List Char → Option (List Char × List Char)
  | [] => none
  | '"' :: rest => some ([], rest)
  | '\\' :: 'u' :: h1 :: h2 :: h3 :: h4 :: rest =>
    match hexVal h1, hexVal h2, hexVal h3, hexVal h4 with
    | some a, some b, some c, some d =>
      (parseStrChars rest).map
        (fun p => (Char.ofNat (((a * 16 + b) * 16 + c) * 16 + d) :: p.1, p.2))
    | _, _, _, _ => none
  | '\\' :: e :: rest =>
    match escCharOf e with
    | some c => (parseStrChars rest).map (fun p => (c :: p.1, p.2))
    | none => none
  | c :: rest =>
    if c.toNat < 32 then none
    else (parseStrChars rest).map (fun p => (c :: p.1, p.2))

/-- Numeric value of a list of decimal digits. -/
def natOfDigits (ds : List Char) : Nat :=
  ds.foldl (fun a c => 10 * a + (c.toNat - 48)) 0

/-- Parse a JSON number (integers only; a fraction or exponent makes the
model reject, see the module comment). -/
def parseNum (cs : List Char) : Option (Json × List Char) :=
  let neg := match cs with | '-' :: _ => true | _ => false
  let cs1 := match cs with | '-' :: r => r | _ => cs
  let ds := cs1.takeWhile Char.isDigit
  let rest := cs1.dropWhile Char.isDigit
  if ds.isEmpty then none
  else if 2 ≤ ds.length && ds.headD '0' = '0' then none
  else match rest with
    | '.' :: _ => none
    | 'e' :: _ => none
    | 'E' :: _ => none
    | _ => some (Json.num (if neg then -(natOfDigits ds : Int) else (natOfDigits ds : Int)), rest)

mutual

/-- Parse one JSON value (fuelled recursion; the fuel passed by
`json_loads` always suffices). -/
def parseValue : Nat → List Char → Option (Json × List Char)
  | 0, _ => none
  | fuel + 1, cs =>
    match skipWs cs with
    | [] => none
    | '\x7b' :: rest => (parseObjFields fuel rest).map (fun p => (Json.obj p.1, p.2))
    | '[' :: rest => (parseArrElems fuel rest).map (fun p => (Json.arr p.1, p.2))
    | '"' :: rest => (parseStrChars rest).map (fun p => (Json.str (String.mk p.1), p.2))
    | 't' :: 'r' :: 'u' :: 'e' :: rest => some (Json.bool true, rest)
    | 'f' :: 'a' :: 'l' :: 's' :: 'e' :: rest => some (Json.bool false, rest)
    | 'n' :: 'u' :: 'l' :: 'l' :: rest => some (Json.null, rest)
    | c :: rest =>
      if c = '-' || c.isDigit then parseNum (c :: rest) else none

/-- Parse the elements of a JSON array, the opening bracket already
consumed. -/
def parseArrElems : Nat → List Char → Option (List Json × List Char)
  | 0, _ => none
  | fuel + 1, cs =>
    match skipWs cs with
    | ']' :: rest => some ([], rest)
    | cs' => parseArrTail fuel cs'

/-- Parse one or more comma-separated JSON array elements followed by the
closing bracket. -/
def parseArrTail : Nat → List Char → Option (List Json × List Char)
  | 0, _ => none
  | fuel + 1, cs =>
    match parseValue fuel cs with
    | none => none
    | some (v, rem) =>
      match skipWs rem with
      | ',' :: rest => (parseArrTail fuel rest).map (fun p => (v :: p.1, p.2))
      | ']' :: rest => some ([v], rest)
      | _ => none

/-- Parse the fields of a JSON object, the opening brace already
consumed. -/
def parseObjFields : Nat → List Char → Option (List (String × Json) × List Char)
  | 0, _ => none
  | fuel + 1, cs =>
    match skipWs cs with
    | '\x7d' :: rest => some ([], rest)
    | cs' => parseObjTail fuel cs'

/-- Parse one or more comma-separated JSON object members followed by the
closing brace. -/
def parseObjTail : Nat → List Char → Option (List (String × Json) × List Char)
  | 0, _ => none
  | fuel + 1, cs =>
    match skipWs cs with
    | '"' :: rest =>
      match parseStrChars rest with
      | none => none
      | some (key, rem) =>
        match skipWs rem with
        | ':' :: rem2 =>
          match parseValue fuel rem2 with
          | none => none
          | some (v, rem3) =>
            match skipWs rem3 with
            | ',' :: rem4 =>
              (parseObjTail fuel rem4).map (fun p => ((String.mk key, v) :: p.1, p.2))
            | '\x7d' :: rem4 => some ([(String.mk key, v)], rem4)
            | _ => none
        | _ => none
    | _ => none

end

/-- Model of Python's `json.loads`: parse the whole string as a single JSON
value, rejecting trailing non-whitespace (as `json.loads` does). -/
def json_loads (s : String) : Option Json :=
  match parseValue (4 * s.length + 8) s.toList with
  | some (v, rem) => if (skipWs rem).isEmpty then some v else none
  | none => none

/-- Model of Python's `"pages" in parsed` (`gemini_supabase.py` lines 256,
311): key membership for a dict, element membership for a list, substring
test for a string.  On a number, boolean or `None` the Python expression
raises `TypeError`, which aborts the surrounding attempt with the same
no-result outcome this model returns. -/
def hasPages : Json → Bool
  | Json.obj fields => fields.any (fun f => f.1 == "pages")
  | Json.arr xs => xs.any (fun x => match x with | Json.str s => s == "pages" | _ => false)
  | Json.str s => strContains s "pages"
  | _ => false

/-! ### The Normalizer: JSON extraction strategies of `format_with_gemini`
(`gemini_supabase.py` lines 248-313). -/

/-- Match the regex fragment `\s*[}\]]` at the head of the list (the
regex class `\s` matches the same ASCII set as `pyIsSpace`); on success
return the matched characters and the remainder. -/
def wsThenCloser (cs : List Char) : Option (List Char × List Char) :=
  let ws := cs.takeWhile pyIsSpace
  match cs.dropWhile pyIsSpace with
  | c :: r => if c = '\x7d' || c = ']' then some (ws ++ [c], r) else none
  | [] => none

/-- Model of `re.sub(r',(\s*[}\]])', r'\1', json_str)` (line 281): delete a
comma standing directly before whitespace and a closing brace or bracket.
Matches are found left to right and are non-overlapping, as in `re.sub`;
the fuel passed by `strategy4` always suffices. -/
def subCommaCloser : Nat → List Char → List Char
  | 0, cs => cs
  | _ + 1, [] => []
  | fuel + 1, ',' :: rest =>
    (match wsThenCloser rest with
     | some (mid, rem) => mid ++ subCommaCloser fuel rem
     | none => ',' :: subCommaCloser fuel rest)
  | fuel + 1, c :: rest => c :: subCommaCloser fuel rest

/-- Model of `re.sub(r'(?<!\\)X', '\\X', json_str)` for a character `X`
(lines 283 and 285): replace every occurrence of `target` not preceded by a
backslash in the original string by a backslash followed by `repl`.  The
`prev` argument carries the preceding character of the original string. -/
def subUnescaped (target repl : Char) : Option Char → List Char → List Char
  | _, [] => []
  | prev, c :: rest =>
    if c = target then
      if prev = some '\\' then c :: subUnescaped target repl (some c) rest
      else '\\' :: repl :: subUnescaped target repl (some c) rest
    else c :: subUnescaped target repl (some c) rest

/-- Strategy 2 (lines 261-269): extract the content between the first pair
of fence markers, preferring a fence tagged as JSON. -/
def extractFenced (s : String) : Option String :=
  if strContains s "```json" then
    match pySplit s "```json" with
    | _ :: p1 :: _ => some (pyStrip ((pySplit p1 "```").getD 0 ""))
    | _ => none
  else if strContains s "```" then
    match pySplit s "```" with
    | _ :: p1 :: _ => some (pyStrip ((pySplit p1 "```").getD 0 ""))
    | _ => none
  else none

/-- Index of the last occurrence of `c`, modelling Python's `str.rfind`. -/
def lastIdxOf (cs : List Char) (c : Char) : Option Nat :=
  match cs.reverse.findIdx? (· = c) with
  | some i => some (cs.length - 1 - i)
  | none => none

/-- Strategy 3 (lines 271-276): slice from the first opening brace to the
last closing brace, provided the latter comes after the former. -/
def findBraceSlice (s : String) : Option String :=
  let cs := s.toList
  match cs.findIdx? (· = '\x7b'), lastIdxOf cs '\x7d' with
  | some start, some stop =>
    if start < stop then some (String.mk ((cs.drop start).take (stop + 1 - start)))
    else none
  | _, _ => none

/-- Python truthiness of the `json_str` variable, which is either `None` or
a string: `None` and the empty string are falsy. -/
def pyTruthyStr (o : Option String) : Bool :=
  !(o.getD "").isEmpty

/-- Strategy 4 (lines 278-313): regex clean-ups, then — only when the
bracket/brace counts indicate truncation — append the missing closers
(brackets before braces) and parse.  A balanced candidate string is never
parsed here: the `json.loads` retry at line 310 sits inside the
`if open_count > close_count or open_arrays > 0` branch of line 292.  The
`JSONDecodeError` recovery of lines 314-395 (the optional `jsonrepair`
import, the last-attempt partial-page extraction and the single-character
deletion) is modelled as yielding no result: the `jsonrepair` package is an
optional dependency that is not installed, and no theorem below exercises
an input reaching that branch. -/
def strategy4 (jsonStr : String) : Option Json :=
  let s1 := String.mk (subCommaCloser (jsonStr.length + 1) jsonStr.toList)
  let s2 := String.mk (subUnescaped '\n' 'n' none s1.toList)
  let s3 := String.mk (subUnescaped '\t' 't' none s2.toList)
  let cs := s3.toList
  let openC := cs.count '\x7b'
  let closeC := cs.count '\x7d'
  let openA : Int := (cs.count '[' : Int) - (cs.count ']' : Int)
  if closeC < openC || 0 < openA then
    let missingBraces : Int := (openC : Int) - (closeC : Int)
    let repair := List.replicate openA.toNat ']' ++ List.replicate missingBraces.toNat '\x7d'
    match json_loads (String.mk (cs ++ repair)) with
    | some p => if hasPages p then some p else none
    | none => none
  else none

/-- Strategies 2 and 3 select the candidate `json_str`, then strategy 4
post-processes it (lines 261-313); `json_str` is consulted with Python
truthiness at lines 272 and 279. -/
def normalizeRest (formatted : String) : Option Json :=
  let js0 := extractFenced formatted
  let js1 := if pyTruthyStr js0 then js0 else
    match findBraceSlice formatted with
    | some t => some t
    | none => js0
  match js1 with
  | some t => if t.isEmpty then none else strategy4 t
  | none => none

/-- One attempt of the Normalizer (`gemini_supabase.py` lines 248-313):
strip the raw response, try direct parsing (strategy 1, returning only when
the parse succeeds and the `pages` key is present), otherwise fall through
to the extraction strategies. -/
def normalizeGeminiOutput (raw : String) : Option Json :=
  let formatted := pyStrip raw
  match json_loads formatted with
  | some p => if hasPages p then some p else normalizeRest formatted
  | none => normalizeRest formatted

/-! ### State records of `extract_state_from_html.py` and the fallback
structure of `format_with_gemini` (`gemini_supabase.py` lines 430-482). -/

/-- One merged per-state record of `extract_state_data_from_html`
(`extract_state_from_html.py` line 82): `\x7b"state": state, "loss": None,
"count": None, "incidents": None\x7d` at initialization. -/
structure StateRecord where
  state : String
  loss : Option Int
  count : Option Int
  incidents : Option Int
deriving Repr, DecidableEq

/-- One entry of the OCR `results` list. -/
structure OcrResult where
  page : Option Int
  text : String
deriving Repr, DecidableEq

/-- The OCR input document (`ocr_json_data`); `none` fields model absent
dictionary keys. -/
structure OcrData where
  filename : Option String
  total_pages : Option Int
  results : List OcrResult
deriving Repr, DecidableEq

/-- Scan for the first run of four decimal digits, as the regex search
`re.search(r'(\d\x7b4\x7d)', filename)` does. -/
def yearScan : List Char → Option Int
  | c1 :: c2 :: c3 :: c4 :: rest =>
    if c1.isDigit && c2.isDigit && c3.isDigit && c4.isDigit then
      some (natOfDigits [c1, c2, c3, c4] : Int)
    else yearScan (c2 :: c3 :: c4 :: rest)
  | _ => none

/-- Model of `extract_year_from_filename` (`gemini_supabase.py` lines
57-60): the first four consecutive digits of the filename, else `None`. -/
def extract_year_from_filename (filename : String) : Option Int :=
  yearScan filename.toList

/-- Render an optional integer as a JSON value (`None` becomes `null`). -/
def optIntToJson : Option Int → Json
  | none => Json.null
  | some n => Json.num n

/-- One fallback page entry (`gemini_supabase.py` lines 446-463): built
from the enumeration index `i` and the OCR result. -/
def pageFallback (i : Nat) (r : OcrResult) : Json :=
  Json.obj [
    ("page_number", Json.num (r.page.getD ((i : Int) + 1))),
    ("content_summary", Json.str "Analysis failed - see raw_text"),
    ("fraud_metrics", Json.obj [
      ("tables", Json.arr []),
      ("total_loss", Json.null),
      ("total_victims", Json.null),
      ("top_categories", Json.arr [])]),
    ("financial_data", Json.obj [
      ("losses_by_category", Json.arr []),
      ("total_loss", Json.null)]),
    ("raw_text", Json.str "")]

/-- One `losses_by_state` entry of the fallback (`gemini_supabase.py`
lines 470-478). -/
def stateToJson (r : StateRecord) : Json :=
  Json.obj [
    ("state", Json.str r.state),
    ("amount", optIntToJson r.loss),
    ("victim_count", optIntToJson r.count),
    ("incidents", optIntToJson r.incidents)]

/-- The fallback analysis structure (`gemini_supabase.py` lines 440-482),
returned when every Gemini attempt has failed.  `state_data` is the result
of `extract_state_data_from_html(ocr_json_data)`, or `[]` when that call
raised (lines 432-438). -/
def fallbackAnalysis (ocr : OcrData) (state_data : List StateRecord) : Json :=
  Json.obj [
    ("filename", Json.str (ocr.filename.getD "unknown")),
    ("total_pages", Json.num (ocr.total_pages.getD 0)),
    ("year", optIntToJson (extract_year_from_filename (ocr.filename.getD ""))),
    ("document_type", Json.str "fraud report"),
    ("pages", Json.arr (ocr.results.enum.map (fun p => pageFallback p.1 p.2))),
    ("overall_metrics", Json.obj [
      ("total_loss", Json.null),
      ("total_victims", Json.null),
      ("year", optIntToJson (extract_year_from_filename (ocr.filename.getD ""))),
      ("top_fraud_categories", Json.arr []),
      ("losses_by_category", Json.arr []),
      ("losses_by_state", Json.arr (state_data.map stateToJson))]),
    ("overall_summary", Json.str (
      if state_data.isEmpty then "Gemini analysis failed - using raw OCR data"
      else "Gemini analysis failed - extracted " ++ toString state_data.length
           ++ " state records from HTML"))]

/-- Model of the full `format_with_gemini` control flow
(`gemini_supabase.py` lines 219-482).  Each element of `attempts` is the
outcome of one Gemini call: `Except.error` when the call raised (rate
limits and other exceptions alike end with `continue` or `break`, lines
404-428; the back-off sleeps have no observable effect), `Except.ok text`
when it returned `text`.  The first attempt whose Normalizer run yields a
value returns it; when every attempt is exhausted, the fallback structure
is returned (lines 430-482). -/
def format_with_gemini (attempts : List (Except String String)) (ocr : OcrData)
    (state_data : List StateRecord) : Json :=
  match attempts with
  | [] => fallbackAnalysis ocr state_data
  | Except.error _ :: rest => format_with_gemini rest ocr state_data
  | Except.ok text :: rest =>
    match normalizeGeminiOutput text with
    | some j => j
    | none => format_with_gemini rest ocr state_data

/-- Key lookup in a parsed JSON object (first occurrence; the claims below
never build objects with duplicate keys). -/
def jsonGet (j : Json) (key : String) : Option Json :=
  match j with
  | Json.obj fields => (fields.find? (fun f => f.1 == key)).map (·.2)
  | _ => none

/-! ### The Table Extractor's number recording and state merge
(`extract_state_from_html.py` lines 68-94). -/

/-- Lookup in the `state_dict` (a Python dict keyed by state name,
modelled as an insertion-ordered association list). -/
def lookupState (d : List StateRecord) (s : String) : Option StateRecord :=
  d.find? (fun r => r.state == s)

/-- Dict assignment `state_dict[state] = r`: replace the keyed entry in
place, or append a new one. -/
def setState (d : List StateRecord) (s : String) (r : StateRecord) : List StateRecord :=
  if (d.find? (fun x => x.state == s)).isSome then
    d.map (fun x => if x.state == s then r else x)
  else d ++ [r]

/-- The per-field update of lines 84-92: a loss (dollar) value replaces the
stored loss only when strictly greater; a count value likewise replaces the
stored count, and resets `incidents` alongside it. -/
def updateEntry (e : StateRecord) (num : Int) (hasDollar : Bool) : StateRecord :=
  if hasDollar then
    match e.loss with
    | none => { e with loss := some num }
    | some old => if old < num then { e with loss := some num } else e
  else
    match e.count with
    | none => { e with count := some num, incidents := some num }
    | some old => if old < num then { e with count := some num, incidents := some num } else e

/-- Lines 79-92: record a parsed number for a state — only values
strictly above 100 are recorded; a fresh entry starts with all fields
`None` (line 82). -/
def recordNum (d : List StateRecord) (state : String) (num : Int) (hasDollar : Bool) :
    List StateRecord :=
  if 100 < num then
    setState d state (updateEntry ((lookupState d state).getD ⟨state, none, none, none⟩) num hasDollar)
  else d

/-- Line 76: strip dollar signs, HTML-encoded dollar signs and commas,
then surrounding whitespace. -/
def cleanCell (cell : String) : String :=
  pyStrip (pyReplace (pyReplace (pyReplace cell "$" "") "&#36;" "") "," "")

/-- Python's `str.isdigit` (ASCII): nonempty and all decimal digits. -/
def isPyDigit (s : String) : Bool :=
  !s.isEmpty && s.toList.all Char.isDigit

/-- Python's `int(s)` on an already-stripped string: an optional sign and
decimal digits (underscore digit grouping is not modelled; no table cell
uses it). -/
def parsePyInt (s : String) : Option Int :=
  match s.toList with
  | '-' :: ds => if !ds.isEmpty && ds.all Char.isDigit then some (-(natOfDigits ds : Int)) else none
  | '+' :: ds => if !ds.isEmpty && ds.all Char.isDigit then some (natOfDigits ds : Int) else none
  | ds => if !ds.isEmpty && ds.all Char.isDigit then some (natOfDigits ds : Int) else none

/-- Python's `int(float(s))` on a string containing a dot: optional sign,
decimal digits around a single dot (at least one digit), truncated toward
zero — that is, the value of the integer-part digits with the sign applied
(`inf`, `nan` and exponent forms are not modelled; no table cell uses
them). -/
def parsePyFloatTrunc (s : String) : Option Int :=
  let sgn : Int := match s.toList with | '-' :: _ => -1 | _ => 1
  let body := match s.toList with | '-' :: r => r | '+' :: r => r | r => r
  let ip := body.takeWhile Char.isDigit
  match body.dropWhile Char.isDigit with
  | '.' :: fp =>
    if fp.all Char.isDigit && !(ip.isEmpty && fp.isEmpty) then
      some (sgn * (natOfDigits ip : Int))
    else none
  | _ => none

/-- Line 78: `int(float(clean_cell)) if '.' in clean_cell else
int(clean_cell)`; `none` models the exception swallowed at lines 93-94. -/
def parsePyNum (s : String) : Option Int :=
  if s.toList.contains '.' then parsePyFloatTrunc s else parsePyInt s

/-- Lines 70-94, one iteration of the cell loop after a state was
identified in the row: skip the cell when it mentions the state or when its
stripped text is all digits (rank columns); otherwise clean it, parse it as
a number, and record the value — parse failures are swallowed. -/
def processCell (d : List StateRecord) (state : String) (hasDollar : Bool) (cell : String) :
    List StateRecord :=
  if strContains (pyLower cell) (pyLower state) || isPyDigit (pyStrip cell) then d
  else
    match parsePyNum (cleanCell cell) with
    | some num => recordNum d state num hasDollar
    | none => d

/-- The full cell loop of lines 70-94 over one row's cells. -/
def processCells (d : List StateRecord) (state : String) (hasDollar : Bool)
    (cells : List String) : List StateRecord :=
  cells.foldl (fun acc c => processCell acc state hasDollar c) d

/-! ### The age-group normalizer (`fraud_visualizations.py` lines 17-47). -/

/-- Model of `re.sub(r'\s+', ' ', s)`: replace each maximal run of
whitespace by a single space.  The flag records whether the previous
character belonged to a run already replaced. -/
def collapseWsGo : Bool → List Char → List Char
  | _, [] => []
  | prevWs, c :: rest =>
    if pyIsSpace c then
      if prevWs then collapseWsGo true rest else ' ' :: collapseWsGo true rest
    else c :: collapseWsGo false rest

/-- Model of `re.sub(r'\s+', ' ', s)` on a string. -/
def collapseWs (s : String) : String :=
  String.mk (collapseWsGo false s.toList)

/-- Model of `normalize_age_group` (`fraud_visualizations.py` lines
17-47).  A falsy input (`None` or the empty string) yields `None`,
modelled here by the empty string; otherwise the label is lowercased,
stripped, whitespace-collapsed and dash-normalized before the keyword
checks, and returned unchanged when no check matches. -/
def normalize_age_group (age_group : String) : Option String :=
  if age_group.isEmpty then none
  else
    let a0 := collapseWs (pyStrip (pyLower age_group))
    let a := pyReplace (pyReplace (pyReplace a0 " - " "-") "–" "-") "—" "-"
    some (
      if strContains a "over" && (strContains a "60" || strContains a "sixty" || startsWithB a "60+") then "Over 60"
      else if (strContains a "50" && strContains a "59") || a = "50-59" || a = "50 - 59" then "50-59"
      else if (strContains a "40" && strContains a "49") || a = "40-49" || a = "40 - 49" then "40-49"
      else if (strContains a "30" && strContains a "39") || a = "30-39" || a = "30 - 39" then "30-39"
      else if (strContains a "20" && strContains a "29") || a = "20-29" || a = "20 - 29" then "20-29"
      else if strContains a "under" && strContains a "20" then "Under 20"
      else if startsWithB a "60+" || a = "over 60" then "Over 60"
      else if startsWithB a "< 20" || startsWithB a "under 20" then "Under 20"
      else age_group)

/-! ### Cache lookup (`gemini_supabase.py` lines 610-621) and record
saving (lines 546-608). -/

/-- One row of the `ocr_results` table as seen by `check_cache`:
the filename, the optional `cached_at` column, and the remaining columns
abstracted into `payload`. -/
structure CacheRecord where
  filename : String
  cached_at : Option String
  payload : String
deriving Repr, DecidableEq

/-- The sort key of line 617: `x.get("cached_at", "")`. -/
def cacheKey (r : CacheRecord) : String :=
  r.cached_at.getD ""

/-- The dictionary returned by `check_cache`: on a storage exception the
Python function returns `\x7b"cached": False, "error": str(e)\x7d` (no
`data` key, modelled as `data = none`); on a miss
`\x7b"cached": False, "data": None\x7d`; on a hit
`\x7b"cached": True, "data": latest\x7d`. -/
structure CacheResult where
  cached : Bool
  data : Option CacheRecord
  error : Option String
deriving Repr, DecidableEq

/-- The record `sorted(data, key=..., reverse=True)[0]` selects: Python's
sort is stable, so with `reverse=True` index 0 holds the first listed
record among those with the maximal key.  `latest1 b l` keeps `b` unless a
strictly greater key appears. -/
def latest1 (b : CacheRecord) : List CacheRecord → CacheRecord
  | [] => b
  | r :: rest => latest1 (if keyLtB (cacheKey b) (cacheKey r) then r else b) rest

/-- Model of `check_cache` (`gemini_supabase.py` lines 610-621).  `fetch`
is the outcome of building the client and running the filtered select
(`.eq("filename", filename)`, modelled as a filter over the table rows);
any exception in that pipeline is an `Except.error` and is swallowed. -/
def check_cache (fetch : Except String (List CacheRecord)) (filename : String) : CacheResult :=
  match fetch with
  | Except.error e => ⟨false, none, some e⟩
  | Except.ok rows =>
    match rows.filter (fun r => r.filename == filename) with
    | [] => ⟨false, none, none⟩
    | r :: rest => ⟨true, some (latest1 r rest), none⟩

/-- The structured result of `save_to_supabase`: the `success` flag and
the optional `error` message of the returned dictionary. -/
structure SaveResult where
  success : Bool
  error : Option String
deriving Repr, DecidableEq

/-- Line 594: the "column not found" class of storage errors
(`"pgrst204" in error_str or "could not find" in error_str` over the
lowercased message). -/
def schemaErr (e : String) : Bool :=
  strContains (pyLower e) "pgrst204" || strContains (pyLower e) "could not find"

/-- Lines 598-599 and 606-607: append the row-level-security hint when the
message mentions RLS (lowercased) or the Postgres permission code. -/
def withRlsHint (e : String) : String :=
  if strContains (pyLower e) "row-level security" || strContains e "42501" then
    e ++ " (Hint: Use SUPABASE_SERVICE_KEY to bypass RLS)"
  else e

/-- The required columns of the insert record (lines 552-558). -/
def requiredFields : List String :=
  ["filename", "formatted_json", "original_ocr_data", "created_at", "total_pages"]

/-- The optional columns added when dataframe data is available
(lines 561-579). -/
def optionalFieldNames : List String :=
  ["dataframe_json", "keywords", "key_metrics"]

/-- The full field set of the first insert attempt (lines 582-584). -/
def fullFields : List String :=
  requiredFields ++ optionalFieldNames ++ ["ocr_raw_data", "cached_at"]

/-- The insert loop of lines 587-603: try each field set in order; succeed
on the first accepted insert; keep trying on a schema ("column not found")
error; surface any other error immediately with the RLS hint applied.  The
second component returns the field sets actually passed to the insert, so
that "without trying smaller field sets" is observable. -/
def insertAttempts (ins : List String → Except String Unit) :
    List (List String) → SaveResult × List (List String)
  | [] => (⟨false, some "Failed to insert with any column combination"⟩, [])
  | fs :: rest =>
    match ins fs with
    | Except.ok _ => (⟨true, none⟩, [fs])
    | Except.error e =>
      if schemaErr e then
        let p := insertAttempts ins rest
        (p.1, fs :: p.2)
      else (⟨false, some (withRlsHint e)⟩, [fs])

/-- Model of `save_to_supabase` (`gemini_supabase.py` lines 546-608):
`clientInit` is the outcome of building the client and the record
(lines 549-584, caught by the outer handler at lines 604-608 with the same
hint); the insert attempts then run over the full, intermediate and
required field sets in that order (line 587). -/
def save_to_supabase (clientInit : Except String Unit)
    (ins : List String → Except String Unit) : SaveResult × List (List String) :=
  match clientInit with
  | Except.error e => (⟨false, some (withRlsHint e)⟩, [])
  | Except.ok _ =>
    insertAttempts ins [fullFields, requiredFields ++ optionalFieldNames, requiredFields]

/-- The maximum update step used by the merge claims: `optMax o v` is the
stored field after recording `v` over a previous field value `o`. -/
def optMax (o : Option Int) (v : Int) : Option Int :=
  some (match o with | none => v | some m => max m v)

/-- The maximum of a list of integers, as an iterated `optMax`. -/
def listMax? (l : List Int) : Option Int :=
  l.foldl optMax none

/-- The loss field recorded for a state, `None` when the state is absent
or its loss never set. -/
def lossOf (d : List StateRecord) (s : String) : Option Int :=
  (lookupState d s).bind (·.loss)

/-- The count field recorded for a state. -/
def countOf (d : List StateRecord) (s : String) : Option Int :=
  (lookupState d s).bind (·.count)

/-- The loss observations among a document's recorded observations for one
state: each pair is a value with its dollar-table flag. -/
def lossValues (obs : List (Int × Bool)) : List Int :=
  (obs.filter (·.2)).map (·.1)

/-- The count observations among a document's recorded observations. -/
def countValues (obs : List (Int × Bool)) : List Int :=
  (obs.filter (fun p => !p.2)).map (·.1)

/-- Replay a document's observations for one state through the recording
step, starting from the empty `state_dict`. -/
def runObservations (s : String) (obs : List (Int × Bool)) : List StateRecord :=
  obs.foldl (fun d p => recordNum d s p.1 p.2) []

/-! ### Concrete inputs used by the claim theorems and witnesses. -/

/-- A raw LLM response whose only wrapping is a JSON-tagged fenced code
block around valid JSON with the `pages` key. -/
def fencedExample : String := "```json\n\x7b\"pages\":[]\x7d\n```"

/-- The content between the fence markers of `fencedExample`. -/
def fencedPayload : String := "\x7b\"pages\":[]\x7d"

/-- The truncated LLM response of the truncation-repair scenario: two
opening braces against one closing, plus one unmatched opening bracket. -/
def truncatedExample : String := "\x7b\"pages\": [\x7b\"page_number\":1\x7d"

/-- A small OCR document used by witnesses. -/
def ocrExample : OcrData :=
  ⟨some "2024_IC3Report.pdf", some 2, [⟨some 1, "page one"⟩, ⟨none, "page two"⟩]⟩

/-- Observations used by the state-merge witness: loss values 200 and 150,
count values 120 and 180, all above the recording threshold. -/
def obsExample : List (Int × Bool) :=
  [(200, true), (150, true), (120, false), (180, false)]

/-- Cache rows used by the cache witnesses: two records for the same
filename with distinct timestamps, one for another file. -/
def rowsExample : List CacheRecord :=
  [⟨"a.pdf", some "2024-01-01T00:00:00", "row1"⟩,
   ⟨"a.pdf", some "2024-06-01T00:00:00", "row2"⟩,
   ⟨"b.pdf", some "2025-01-01T00:00:00", "row3"⟩]

/-- An insert that always fails with a permission (row-level security)
error. -/
def insRlsExample : List String → Except String Unit :=
  fun _ => Except.error "new row violates row-level security policy"

/-- An insert that accepts only the required field set and reports a
missing column otherwise. -/
def insSchemaExample : List String → Except String Unit :=
  fun fs => if fs = requiredFields then Except.ok () else
    Except.error "PGRST204: Could not find the column"

/-! ## Theorems -/

theorem char_eq_of_toNat_eq {a b : Char} (h : a.toNat = b.toNat) : a = b :=
  Char.eq_of_val_eq (UInt32.toNat.inj h)

theorem lexLtB_iff_lex : ∀ (l1 l2 : List Char), lexLtB l1 l2 = true ↔ List.Lex (· < ·) l1 l2
  | [], [] => by simp [lexLtB]
  | [], _ :: _ => by simpa [lexLtB] using List.Lex.nil
  | _ :: _, [] => by simp [lexLtB]
  | a :: as, b :: bs => by
    rcases Nat.lt_trichotomy a.toNat b.toNat with h | h | h
    · have hab : a < b := h
      simp only [lexLtB, h, if_pos, true_iff]
      exact List.Lex.rel hab
    · have heq : a = b := char_eq_of_toNat_eq h
      subst heq
      have hirr : ¬ a.toNat < a.toNat := lt_irrefl _
      simp only [lexLtB, hirr, if_false]
      rw [lexLtB_iff_lex as bs]
      exact List.Lex.cons_iff.symm
    · have h1 : ¬ a.toNat < b.toNat := Nat.lt_asymm h
      simp only [lexLtB, h1, h, if_pos, if_false]
      constructor
      · intro hf
        cases hf
      · intro hl
        cases hl with
        | cons _ => exact absurd h (lt_irrefl _)
        | rel hr => exact absurd (show a.toNat < b.toNat from hr) h1

theorem keyLtB_iff {a b : String} : keyLtB a b = true ↔ a < b := by
  rw [String.lt_iff_toList_lt]
  exact lexLtB_iff_lex a.toList b.toList

theorem le_of_keyLtB_eq_false {a b : String} (h : keyLtB a b = false) : b ≤ a := by
  by_contra hc
  rw [not_le] at hc
  rw [← keyLtB_iff] at hc
  rw [h] at hc
  cases hc

theorem latest1_mem (b : CacheRecord) (l : List CacheRecord) :
    latest1 b l = b ∨ latest1 b l ∈ l := by
  induction l generalizing b with
  | nil => exact Or.inl rfl
  | cons r rest ih =>
    by_cases hk : keyLtB (cacheKey b) (cacheKey r) = true
    · simp only [latest1, if_pos hk]
      rcases ih r with h | h
      · exact Or.inr (by rw [h]; exact List.mem_cons_self r rest)
      · exact Or.inr (List.mem_cons_of_mem r h)
    · simp only [latest1, if_neg hk]
      rcases ih b with h | h
      · exact Or.inl h
      · exact Or.inr (List.mem_cons_of_mem r h)

theorem latest1_ge (b : CacheRecord) (l : List CacheRecord) :
    cacheKey b ≤ cacheKey (latest1 b l) ∧
    ∀ x ∈ l, cacheKey x ≤ cacheKey (latest1 b l) := by
  induction l generalizing b with
  | nil =>
    refine ⟨le_refl _, ?_⟩
    intro x hx
    cases hx
  | cons r rest ih =>
    by_cases hk : keyLtB (cacheKey b) (cacheKey r) = true
    · have hbr : cacheKey b ≤ cacheKey r := le_of_lt (keyLtB_iff.mp hk)
      simp only [latest1, if_pos hk]
      obtain ⟨h1, h2⟩ := ih r
      refine ⟨le_trans hbr h1, ?_⟩
      intro x hx
      rcases List.mem_cons.mp hx with rfl | hx'
      · exact h1
      · exact h2 x hx'
    · have hk' : keyLtB (cacheKey b) (cacheKey r) = false := by
        revert hk
        cases keyLtB (cacheKey b) (cacheKey r) <;> simp
      have hrb : cacheKey r ≤ cacheKey b := le_of_keyLtB_eq_false hk'
      simp only [latest1, if_neg hk]
      obtain ⟨h1, h2⟩ := ih b
      refine ⟨h1, ?_⟩
      intro x hx
      rcases List.mem_cons.mp hx with rfl | hx'
      · exact le_trans hrb h1
      · exact h2 x hx'

/-- C7: given multiple cached records stored under the same filename with
pairwise-distinct cache timestamps, `check_cache` returns the record whose
cache timestamp is lexicographically greatest, and reports a miss
(`cached = false`, no data) when no record matches the filename. -/
theorem check_cache_returns_latest (rows : List CacheRecord) (fn : String)
    (hdist : (rows.filter (fun x => x.filename == fn)).Pairwise
      (fun a b => cacheKey a ≠ cacheKey b)) :
    (rows.filter (fun x => x.filename == fn) = [] →
      check_cache (Except.ok rows) fn = ⟨false, none, none⟩) ∧
    ∀ r, (check_cache (Except.ok rows) fn).data = some r →
      (check_cache (Except.ok rows) fn).cached = true ∧
      r ∈ rows.filter (fun x => x.filename == fn) ∧
      (∀ x ∈ rows.filter (fun x => x.filename == fn), cacheKey x ≤ cacheKey r) ∧
      (∀ x ∈ rows.filter (fun x => x.filename == fn), x ≠ r → cacheKey x < cacheKey r) := by
  constructor
  · intro h
    simp only [check_cache, h]
  · intro r hr
    cases hms : rows.filter (fun x => x.filename == fn) with
    | nil =>
      rw [check_cache, hms] at hr
      cases hr
    | cons m ms =>
      have hcc : check_cache (Except.ok rows) fn = ⟨true, some (latest1 m ms), none⟩ := by
        rw [check_cache, hms]
      rw [hcc] at hr
      have hrl : r = latest1 m ms := (Option.some.inj hr).symm
      subst hrl
      have hmem : latest1 m ms ∈ m :: ms := by
        rcases latest1_mem m ms with h | h
        · rw [h]; exact List.mem_cons_self m ms
        · exact List.mem_cons_of_mem m h
      have hge := latest1_ge m ms
      have hmax : ∀ x ∈ m :: ms, cacheKey x ≤ cacheKey (latest1 m ms) := by
        intro x hx
        rcases List.mem_cons.mp hx with rfl | hx'
        · exact hge.1
        · exact hge.2 x hx'
      rw [hcc]
      refine ⟨rfl, hms ▸ hmem, hms ▸ hmax, ?_⟩
      rw [hms] at hdist
      intro x hx hxr
      have hsym : Symmetric (fun a b : CacheRecord => cacheKey a ≠ cacheKey b) :=
        fun _ _ hab => Ne.symm hab
      have hne : cacheKey x ≠ cacheKey (latest1 m ms) :=
        hdist.forall hsym hx hmem hxr
      exact lt_of_le_of_ne (hmax x hx) hne

/-- Witness for C7 at concrete rows: two records cached under `a.pdf` with
distinct timestamps; the lookup returns the one with the greater
timestamp, and that record is maximal among the matches. -/
theorem check_cache_returns_latest_witness :
    check_cache (Except.ok rowsExample) "a.pdf" =
      ⟨true, some ⟨"a.pdf", some "2024-06-01T00:00:00", "row2"⟩, none⟩ ∧
    (⟨"a.pdf", some "2024-06-01T00:00:00", "row2"⟩ : CacheRecord) ∈
      rowsExample.filter (fun x => x.filename == "a.pdf") ∧
    ∀ x ∈ rowsExample.filter (fun x => x.filename == "a.pdf"),
      cacheKey x ≤ cacheKey (⟨"a.pdf", some "2024-06-01T00:00:00", "row2"⟩ : CacheRecord) := by
  have h := check_cache_returns_latest rowsExample "a.pdf" (by decide)
  have hd : (check_cache (Except.ok rowsExample) "a.pdf").data =
      some ⟨"a.pdf", some "2024-06-01T00:00:00", "row2"⟩ := rfl
  obtain ⟨-, hmem, hmax, -⟩ := h.2 _ hd
  exact ⟨rfl, hmem, hmax⟩

/-- C9: a storage exception during cache lookup is never propagated:
`check_cache` returns `cached = false` with the error string, so by the
`cached` flag alone the failure is indistinguishable from a genuine cache
miss. -/
theorem check_cache_swallows_errors (e fn : String) (rows : List CacheRecord)
    (hmiss : rows.filter (fun x => x.filename == fn) = []) :
    check_cache (Except.error e) fn = ⟨false, none, some e⟩ ∧
    (check_cache (Except.error e) fn).cached = false ∧
    (check_cache (Except.error e) fn).cached = (check_cache (Except.ok rows) fn).cached := by
  refine ⟨rfl, rfl, ?_⟩
  simp only [check_cache, hmiss]

/-- Witness for C9: a concrete storage error against a filename with no
cached rows yields the same `cached = false` flag as a genuine miss. -/
theorem check_cache_swallows_errors_witness :
    check_cache (Except.error "connection refused") "missing.pdf" =
      ⟨false, none, some "connection refused"⟩ ∧
    (check_cache (Except.error "connection refused") "missing.pdf").cached =
      (check_cache (Except.ok rowsExample) "missing.pdf").cached := by
  have h := check_cache_swallows_errors "connection refused" "missing.pdf" rowsExample (by decide)
  exact ⟨h.1, h.2.2⟩

theorem lookupState_state {d : List StateRecord} {s : String} {e : StateRecord}
    (h : lookupState d s = some e) : e.state = s := by
  have hp := List.find?_some h
  exact eq_of_beq hp

theorem updateEntry_state (e : StateRecord) (num : Int) (hasDollar : Bool) :
    (updateEntry e num hasDollar).state = e.state := by
  unfold updateEntry
  split
  · split <;> (try split) <;> rfl
  · split <;> (try split) <;> rfl

theorem find_map_set {s : String} {r : StateRecord} (hr : r.state = s) :
    ∀ d : List StateRecord, (d.find? (fun x => x.state == s)).isSome = true →
      ((d.map (fun x => if x.state == s then r else x)).find? (fun x => x.state == s)) = some r := by
  intro d
  induction d with
  | nil => intro h; cases h
  | cons a d ih =>
    intro h
    by_cases ha : (a.state == s) = true
    · simp only [List.map_cons, List.find?_cons, ha, if_pos]
      have : (r.state == s) = true := beq_iff_eq.mpr hr
      simp [this]
    · have ha' : (a.state == s) = false := by
        revert ha
        cases a.state == s <;> simp
      simp only [List.map_cons, List.find?_cons, ha', if_neg] at h ⊢
      simp only [Bool.false_eq_true, if_false, ha']
      apply ih
      simpa [List.find?_cons, ha'] using h

theorem find_setState (d : List StateRecord) (s : String) (r : StateRecord)
    (hr : r.state = s) : lookupState (setState d s r) s = some r := by
  unfold setState lookupState
  by_cases h : (d.find? (fun x => x.state == s)).isSome = true
  · rw [if_pos h]
    exact find_map_set hr d h
  · rw [if_neg h]
    have hnone : d.find? (fun x => x.state == s) = none := by
      revert h
      cases d.find? (fun x => x.state == s) <;> simp
    rw [List.find?_append, hnone]
    simp [List.find?_cons, beq_iff_eq.mpr hr]

theorem recordNum_lookup (d : List StateRecord) (s : String) (num : Int) (hasDollar : Bool)
    (h : 100 < num) :
    lookupState (recordNum d s num hasDollar) s =
      some (updateEntry ((lookupState d s).getD ⟨s, none, none, none⟩) num hasDollar) := by
  unfold recordNum
  rw [if_pos h]
  apply find_setState
  rw [updateEntry_state]
  cases hl : lookupState d s with
  | none => rfl
  | some e => exact lookupState_state hl

theorem updateEntry_loss_dollar (e : StateRecord) (num : Int) :
    (updateEntry e num true).loss = optMax e.loss num := by
  cases hl : e.loss with
  | none => simp [updateEntry, optMax, hl]
  | some old =>
    by_cases h : old < num
    · simp [updateEntry, optMax, hl, h, max_eq_right (le_of_lt h)]
    · simp [updateEntry, optMax, hl, h, max_eq_left (le_of_not_lt h)]

theorem updateEntry_count_dollar (e : StateRecord) (num : Int) :
    (updateEntry e num true).count = e.count := by
  cases hl : e.loss with
  | none => simp [updateEntry, hl]
  | some old =>
    by_cases h : old < num
    · simp [updateEntry, hl, h]
    · simp [updateEntry, hl, h]

theorem updateEntry_loss_nodollar (e : StateRecord) (num : Int) :
    (updateEntry e num false).loss = e.loss := by
  cases hc : e.count with
  | none => simp [updateEntry, hc]
  | some old =>
    by_cases h : old < num
    · simp [updateEntry, hc, h]
    · simp [updateEntry, hc, h]

theorem updateEntry_count_nodollar (e : StateRecord) (num : Int) :
    (updateEntry e num false).count = optMax e.count num := by
  cases hc : e.count with
  | none => simp [updateEntry, optMax, hc]
  | some old =>
    by_cases h : old < num
    · simp [updateEntry, optMax, hc, h, max_eq_right (le_of_lt h)]
    · simp [updateEntry, optMax, hc, h, max_eq_left (le_of_not_lt h)]

theorem getD_loss (d : List StateRecord) (s : String) :
    ((lookupState d s).getD ⟨s, none, none, none⟩).loss = lossOf d s := by
  unfold lossOf
  cases lookupState d s <;> rfl

theorem getD_count (d : List StateRecord) (s : String) :
    ((lookupState d s).getD ⟨s, none, none, none⟩).count = countOf d s := by
  unfold countOf
  cases lookupState d s <;> rfl

theorem lossOf_recordNum (d : List StateRecord) (s : String) (num : Int) (hasDollar : Bool)
    (h : 100 < num) :
    lossOf (recordNum d s num hasDollar) s =
      if hasDollar then optMax (lossOf d s) num else lossOf d s := by
  unfold lossOf
  rw [recordNum_lookup d s num hasDollar h]
  cases hasDollar with
  | true => simp [updateEntry_loss_dollar, getD_loss, lossOf]
  | false => simp [updateEntry_loss_nodollar, getD_loss, lossOf]

theorem countOf_recordNum (d : List StateRecord) (s : String) (num : Int) (hasDollar : Bool)
    (h : 100 < num) :
    countOf (recordNum d s num hasDollar) s =
      if hasDollar then countOf d s else optMax (countOf d s) num := by
  unfold countOf
  rw [recordNum_lookup d s num hasDollar h]
  cases hasDollar with
  | true => simp [updateEntry_count_dollar, getD_count, countOf]
  | false => simp [updateEntry_count_nodollar, getD_count, countOf]

theorem fold_loss (s : String) :
    ∀ (obs : List (Int × Bool)) (d : List StateRecord), (∀ p ∈ obs, 100 < p.1) →
      lossOf (obs.foldl (fun acc p => recordNum acc s p.1 p.2) d) s =
        (lossValues obs).foldl optMax (lossOf d s) := by
  intro obs
  induction obs with
  | nil => intro d _; rfl
  | cons p obs' ih =>
    intro d h
    have hp : 100 < p.1 := h p (List.mem_cons_self p obs')
    have h' : ∀ q ∈ obs', 100 < q.1 := fun q hq => h q (List.mem_cons_of_mem p hq)
    simp only [List.foldl_cons]
    rw [ih (recordNum d s p.1 p.2) h']
    rw [lossOf_recordNum d s p.1 p.2 hp]
    cases hb : p.2 with
    | true => simp [lossValues, List.filter_cons, hb]
    | false => simp [lossValues, List.filter_cons, hb]

theorem fold_count (s : String) :
    ∀ (obs : List (Int × Bool)) (d : List StateRecord), (∀ p ∈ obs, 100 < p.1) →
      countOf (obs.foldl (fun acc p => recordNum acc s p.1 p.2) d) s =
        (countValues obs).foldl optMax (countOf d s) := by
  intro obs
  induction obs with
  | nil => intro d _; rfl
  | cons p obs' ih =>
    intro d h
    have hp : 100 < p.1 := h p (List.mem_cons_self p obs')
    have h' : ∀ q ∈ obs', 100 < q.1 := fun q hq => h q (List.mem_cons_of_mem p hq)
    simp only [List.foldl_cons]
    rw [ih (recordNum d s p.1 p.2) h']
    rw [countOf_recordNum d s p.1 p.2 hp]
    cases hb : p.2 with
    | true => simp [countValues, List.filter_cons, hb]
    | false => simp [countValues, List.filter_cons, hb]

/-- C4: for every sequence of same-state observations with values
recorded for a given field (loss or count), the merged record holds the
maximum of the recorded values for that field, never their sum, and the
loss and count fields are merged independently of each other. -/
theorem state_merge_by_max (s : String) (obs : List (Int × Bool))
    (h : ∀ p ∈ obs, 100 < p.1) :
    lossOf (runObservations s obs) s = listMax? (lossValues obs) ∧
    countOf (runObservations s obs) s = listMax? (countValues obs) := by
  unfold runObservations listMax?
  exact ⟨fold_loss s obs [] h, fold_count s obs [] h⟩

/-- Witness for C4: losses 200 and 150 and counts 120 and 180 observed
for California merge to loss 200 and count 180 — the maxima, not the
sums. -/
theorem state_merge_by_max_witness :
    lossOf (runObservations "California" obsExample) "California" = some 200 ∧
    countOf (runObservations "California" obsExample) "California" = some 180 ∧
    listMax? (lossValues obsExample) = some 200 ∧
    listMax? (countValues obsExample) = some 180 := by
  have h := state_merge_by_max "California" obsExample (by decide)
  exact ⟨h.1.trans (by decide), h.2.trans (by decide), by decide, by decide⟩

/-- C6: for every table cell the Table Extractor parses to a number, a
value at most 100 is never recorded as a loss or a count, and a value of
101 or more from a non-skipped cell is recorded — the boundary is exactly
100 excluded, 101 included. -/
theorem threshold_filter (d : List StateRecord) (state : String) (hasDollar : Bool)
    (cell : String) (num : Int) (hp : parsePyNum (cleanCell cell) = some num) :
    (num ≤ 100 → processCell d state hasDollar cell = d) ∧
    (101 ≤ num →
      strContains (pyLower cell) (pyLower state) = false →
      isPyDigit (pyStrip cell) = false →
      processCell d state hasDollar cell = recordNum d state num hasDollar ∧
      lossOf (processCell d state hasDollar cell) state =
        (if hasDollar then optMax (lossOf d state) num else lossOf d state) ∧
      countOf (processCell d state hasDollar cell) state =
        (if hasDollar then countOf d state else optMax (countOf d state) num)) := by
  constructor
  · intro hle
    unfold processCell
    by_cases hskip : (strContains (pyLower cell) (pyLower state) || isPyDigit (pyStrip cell)) = true
    · rw [if_pos hskip]
    · rw [if_neg hskip, hp]
      show recordNum d state num hasDollar = d
      unfold recordNum
      rw [if_neg (by omega : ¬ (100 : Int) < num)]
  · intro hge hc hd2
    have h100 : (100 : Int) < num := by omega
    have hpc : processCell d state hasDollar cell = recordNum d state num hasDollar := by
      simp only [processCell, hc, hd2, Bool.or_self, Bool.false_eq_true, if_false, hp]
    refine ⟨hpc, ?_, ?_⟩
    · rw [hpc]
      exact lossOf_recordNum d state num hasDollar h100
    · rw [hpc]
      exact countOf_recordNum d state num hasDollar h100

/-- Witness for C6 at the boundary: the cell `$100` leaves the dictionary
untouched while `$101` records a loss of 101 for Texas. -/
theorem threshold_filter_witness :
    processCell [] "Texas" true "$100" = [] ∧
    lossOf (processCell [] "Texas" true "$101") "Texas" = some 101 := by
  have h1 := threshold_filter [] "Texas" true "$100" 100 (by decide)
  have h2 := threshold_filter [] "Texas" true "$101" 101 (by decide)
  refine ⟨h1.1 (by decide), ?_⟩
  have h := (h2.2 (by decide) (by decide) (by decide)).2.1
  exact h.trans (by decide)

/-- C10: once a state is identified in a row, a cell whose stripped text
consists solely of digits is skipped regardless of its magnitude, so such
an integer is never recorded as a loss, count, or incidents value. -/
theorem digit_cells_skipped (d : List StateRecord) (state : String) (hasDollar : Bool)
    (cell : String) (hdig : isPyDigit (pyStrip cell) = true) :
    processCell d state hasDollar cell = d := by
  unfold processCell
  rw [if_pos]
  rw [hdig]
  exact Bool.or_true _

/-- Witness for C10: the all-digit cell `23252` is skipped both on an
empty dictionary and on one that already holds a Texas record. -/
theorem digit_cells_skipped_witness :
    processCell [] "Texas" false "23252" = [] ∧
    processCell [⟨"Texas", some 500, none, none⟩] "Texas" true "23252" =
      [⟨"Texas", some 500, none, none⟩] := by
  exact ⟨digit_cells_skipped [] "Texas" false "23252" (by decide),
    digit_cells_skipped [⟨"Texas", some 500, none, none⟩] "Texas" true "23252" (by decide)⟩

theorem append_ne_empty_left (a b : String) (ha : a ≠ "") : a ++ b ≠ "" := by
  intro h
  have h2 := congrArg String.data h
  rw [String.data_append] at h2
  rcases List.append_eq_nil.mp h2 with ⟨h3, -⟩
  exact ha (String.ext h3)

theorem format_all_failed (ocr : OcrData) (state_data : List StateRecord) :
    ∀ attempts, (∀ a ∈ attempts, ∃ e, a = Except.error e) →
      format_with_gemini attempts ocr state_data = fallbackAnalysis ocr state_data := by
  intro attempts
  induction attempts with
  | nil => intro _; rfl
  | cons a rest ih =>
    intro h
    obtain ⟨e, rfl⟩ := h a (List.mem_cons_self a rest)
    show format_with_gemini rest ocr state_data = _
    exact ih (fun x hx => h x (List.mem_cons_of_mem _ hx))

/-- C2: when every LLM attempt raises, the analysis entry point still
returns (it is a total function, never an exception) the fallback
Structured Analysis object, whose `filename` and `total_pages` are
non-null, whose numeric overall metrics are null, and whose non-empty
`overall_summary` states the failure explicitly. -/
theorem analyze_always_returns_fallback (attempts : List (Except String String))
    (ocr : OcrData) (state_data : List StateRecord)
    (h : ∀ a ∈ attempts, ∃ e, a = Except.error e) :
    format_with_gemini attempts ocr state_data = fallbackAnalysis ocr state_data ∧
    jsonGet (fallbackAnalysis ocr state_data) "filename" =
      some (Json.str (ocr.filename.getD "unknown")) ∧
    jsonGet (fallbackAnalysis ocr state_data) "filename" ≠ some Json.null ∧
    jsonGet (fallbackAnalysis ocr state_data) "total_pages" =
      some (Json.num (ocr.total_pages.getD 0)) ∧
    jsonGet (fallbackAnalysis ocr state_data) "total_pages" ≠ some Json.null ∧
    ((jsonGet (fallbackAnalysis ocr state_data) "overall_metrics").bind
      (fun m => jsonGet m "total_loss")) = some Json.null ∧
    ((jsonGet (fallbackAnalysis ocr state_data) "overall_metrics").bind
      (fun m => jsonGet m "total_victims")) = some Json.null ∧
    ∃ s, jsonGet (fallbackAnalysis ocr state_data) "overall_summary" =
        some (Json.str s) ∧ s ≠ "" ∧ ∃ r, s = "Gemini analysis failed" ++ r := by
  refine ⟨format_all_failed ocr state_data attempts h, rfl, ?_, rfl, ?_, rfl, rfl, ?_⟩
  · intro hc
    have h2 := Option.some.inj hc
    cases h2
  · intro hc
    have h2 := Option.some.inj hc
    cases h2
  · cases state_data with
    | nil =>
      exact ⟨"Gemini analysis failed - using raw OCR data", rfl, by decide,
        " - using raw OCR data", rfl⟩
    | cons hd tl =>
      refine ⟨"Gemini analysis failed - extracted " ++ toString (hd :: tl).length
          ++ " state records from HTML", rfl, ?_, ?_⟩
      · exact append_ne_empty_left _ _ (append_ne_empty_left _ _ (by decide))
      · refine ⟨" - extracted " ++ toString (hd :: tl).length ++ " state records from HTML", ?_⟩
        rw [show ("Gemini analysis failed - extracted " : String) =
          "Gemini analysis failed" ++ " - extracted " from rfl]
        rw [String.append_assoc, String.append_assoc, String.append_assoc]

/-- Witness for C2: three raising attempts over a concrete document yield
the fallback object with the concrete filename, page count, null overall
metrics and the explicit failure summary. -/
theorem analyze_always_returns_fallback_witness :
    format_with_gemini
      [Except.error "429 resource exhausted", Except.error "timeout", Except.error "boom"]
      ocrExample [] = fallbackAnalysis ocrExample [] ∧
    jsonGet (fallbackAnalysis ocrExample []) "filename" =
      some (Json.str "2024_IC3Report.pdf") ∧
    jsonGet (fallbackAnalysis ocrExample []) "total_pages" = some (Json.num 2) ∧
    ((jsonGet (fallbackAnalysis ocrExample []) "overall_metrics").bind
      (fun m => jsonGet m "total_loss")) = some Json.null ∧
    jsonGet (fallbackAnalysis ocrExample []) "overall_summary" =
      some (Json.str "Gemini analysis failed - using raw OCR data") := by
  have h := analyze_always_returns_fallback
    [Except.error "429 resource exhausted", Except.error "timeout", Except.error "boom"]
    ocrExample [] (by
      intro a ha
      simp only [List.mem_cons, List.not_mem_nil, or_false] at ha
      rcases ha with rfl | rfl | rfl
      · exact ⟨"429 resource exhausted", rfl⟩
      · exact ⟨"timeout", rfl⟩
      · exact ⟨"boom", rfl⟩)
  exact ⟨h.1, h.2.1, h.2.2.2.1, h.2.2.2.2.2.1, rfl⟩

/-- C1 (code evaluation at the failing input): for a raw response that is
exactly a JSON-tagged fenced block around valid JSON with the `pages` key,
strategy 2 extracts the balanced payload, and that payload parses with the
`pages` key — yet the Normalizer yields no result, because the `json.loads`
retry of line 310 sits inside the truncation branch of line 292 and the
payload is balanced; `format_with_gemini` therefore returns the fallback
structure, not the parsed object the claim states. -/
theorem fenced_json_reaches_fallback :
    extractFenced (pyStrip fencedExample) = some fencedPayload ∧
    json_loads fencedPayload = some (Json.obj [("pages", Json.arr [])]) ∧
    hasPages (Json.obj [("pages", Json.arr [])]) = true ∧
    normalizeGeminiOutput fencedExample = none ∧
    format_with_gemini [Except.ok fencedExample, Except.ok fencedExample, Except.ok fencedExample]
      ocrExample [] = fallbackAnalysis ocrExample [] ∧
    format_with_gemini [Except.ok fencedExample, Except.ok fencedExample, Except.ok fencedExample]
      ocrExample [] ≠ Json.obj [("pages", Json.arr [])] := by
  refine ⟨rfl, rfl, rfl, rfl, rfl, ?_⟩
  intro h
  have hlen := congrArg (fun j => match j with | Json.obj fs => fs.length | _ => 0) h
  exact absurd hlen (by decide)

/-- C3: the truncated text has two opening braces against one closing and
one unmatched opening bracket; the Normalizer appends the missing closers
with the bracket before the brace, and the repaired text parses into an
object containing the `pages` key. -/
theorem truncated_json_repaired :
    (truncatedExample.toList.count '\x7b' = 2 ∧ truncatedExample.toList.count '\x7d' = 1 ∧
     truncatedExample.toList.count '[' = 1 ∧ truncatedExample.toList.count ']' = 0) ∧
    json_loads (truncatedExample ++ "]" ++ "\x7d") =
      some (Json.obj [("pages", Json.arr [Json.obj [("page_number", Json.num 1)]])]) ∧
    normalizeGeminiOutput truncatedExample =
      some (Json.obj [("pages", Json.arr [Json.obj [("page_number", Json.num 1)]])]) ∧
    hasPages (Json.obj [("pages", Json.arr [Json.obj [("page_number", Json.num 1)]])]) = true := by
  exact ⟨⟨rfl, rfl, rfl, rfl⟩, rfl, rfl, rfl⟩

/-- C5 (counterexample): the label `60 - plus` does not normalize to the
bucket `Over 60`; the normalizer returns it unchanged, refuting the claim
that all three of `60+`, `Over 60` and `60 - plus` map to `Over 60`. -/
theorem age_60_plus_counterexample :
    normalize_age_group "60 - plus" = some "60 - plus" ∧
    normalize_age_group "60 - plus" ≠ some "Over 60" := by
  exact ⟨by decide, by decide⟩

/-- C5 (amended): the labels `60+` and `Over 60` both normalize to the
canonical bucket `Over 60`, while `60 - plus` is not recognized by any
keyword check and is returned unchanged. -/
theorem age_normalization_amended :
    normalize_age_group "60+" = some "Over 60" ∧
    normalize_age_group "Over 60" = some "Over 60" ∧
    normalize_age_group "60 - plus" = some "60 - plus" := by
  exact ⟨by decide, by decide, by decide⟩

/-- C8: the Gateway inserts with the full field set first; a non-schema
storage error on that insert is surfaced immediately as a structured
failure — with smaller field sets never attempted — and the RLS hint is
appended for permission errors, while "column not found" errors cascade
through progressively smaller field sets down to the required set. -/
theorem save_schema_retry_and_error_surface :
    (∀ ins : List String → Except String Unit, ∀ e : String,
      ins fullFields = Except.error e → schemaErr e = false →
      save_to_supabase (Except.ok ()) ins = (⟨false, some (withRlsHint e)⟩, [fullFields])) ∧
    (∀ ins : List String → Except String Unit, ∀ e1 e2 : String,
      ins fullFields = Except.error e1 → schemaErr e1 = true →
      ins (requiredFields ++ optionalFieldNames) = Except.error e2 → schemaErr e2 = true →
      ins requiredFields = Except.ok () →
      save_to_supabase (Except.ok ()) ins =
        (⟨true, none⟩, [fullFields, requiredFields ++ optionalFieldNames, requiredFields])) ∧
    (∀ e : String, strContains (pyLower e) "row-level security" = true →
      withRlsHint e = e ++ " (Hint: Use SUPABASE_SERVICE_KEY to bypass RLS)") := by
  refine ⟨?_, ?_, ?_⟩
  · intro ins e h1 h2
    show insertAttempts ins [fullFields, requiredFields ++ optionalFieldNames, requiredFields] = _
    simp only [insertAttempts, h1, h2, Bool.false_eq_true, if_false]
  · intro ins e1 e2 h1 hs1 h2 hs2 h3
    show insertAttempts ins [fullFields, requiredFields ++ optionalFieldNames, requiredFields] = _
    simp only [insertAttempts, h1, hs1, h2, hs2, h3, if_true]
  · intro e he
    unfold withRlsHint
    rw [if_pos]
    rw [he]
    exact Bool.true_or _

/-- Witness for C8: an insert that always reports a row-level-security
violation fails immediately after the full field set only, with the hint
appended; an insert that accepts only the required columns succeeds after
cascading through all three field sets. -/
theorem save_schema_retry_and_error_surface_witness :
    save_to_supabase (Except.ok ()) insRlsExample =
      (⟨false, some ("new row violates row-level security policy"
        ++ " (Hint: Use SUPABASE_SERVICE_KEY to bypass RLS)")⟩, [fullFields]) ∧
    save_to_supabase (Except.ok ()) insSchemaExample =
      (⟨true, none⟩, [fullFields, requiredFields ++ optionalFieldNames, requiredFields]) := by
  have h1 := save_schema_retry_and_error_surface.1 insRlsExample
    "new row violates row-level security policy" rfl (by decide)
  have h2 := save_schema_retry_and_error_surface.2.1 insSchemaExample
    "PGRST204: Could not find the column" "PGRST204: Could not find the column"
    rfl (by decide) rfl (by decide) rfl
  exact ⟨h1.trans (by decide), h2⟩
